import Mathlib

/-!
Verification development for the category-extraction and blueprint engine of
the templateForgeAi repository.  The Python sources under
`src/ai_agents/category_extractor/` are shallowly embedded below: pure
helpers become Lean functions, dictionaries become association lists, the
browser page becomes an explicit map from selector strings to the elements it
would return, and raised exceptions become `Except` errors.
-/

namespace Extractor

/-! ## Character-list string helpers

Python string primitives (`str.split`, `str.strip`, `str.lower`,
`sep in s`, …) are modelled on `List Char`, the code-point view that matches
Python string indexing and `len`. -/

/-- Python `s.split(c, 1)`: the part before the first occurrence of `c`, and
`some` remainder when `c` occurs. -/
def breakAtChar (c : Char) : List Char → List Char × Option (List Char)
  | [] => ([], none)
  | x :: xs =>
    if x = c then ([], some xs)
    else
      let r := breakAtChar c xs
      (x :: r.1, r.2)

/-- Python `s.split(c)` (always returns at least one piece). -/
def splitOnChar (c : Char) : List Char → List (List Char)
  | [] => [[]]
  | x :: xs =>
    if x = c then [] :: splitOnChar c xs
    else
      match splitOnChar c xs with
      | [] => [[x]]
      | h :: t => (x :: h) :: t

/-- Python `c.join(pieces)`. -/
def joinWithChar (c : Char) : List (List Char) → List Char
  | [] => []
  | [x] => x
  | x :: y :: rest => x ++ c :: joinWithChar c (y :: rest)

/-- Split at the last occurrence of `c`: `some (before, after)` when present. -/
def splitAtLastChar (c : Char) (l : List Char) : Option (List Char × List Char) :=
  match breakAtChar c l.reverse with
  | (_, none) => none
  | (revAfter, some revBefore) => some (revBefore.reverse, revAfter.reverse)

/-- Python `s.strip(chars)` for a character class `p`. -/
def pyStrip (p : Char → Bool) (l : List Char) : List Char :=
  ((l.dropWhile p).reverse.dropWhile p).reverse

/-- Python whitespace characters recognised by `str.strip()` (ASCII range). -/
def isPySpace (c : Char) : Bool :=
  c = ' ' || c = '\t' || c = '\n' || c = '\x0d' || c = '\x0b' || c = '\x0c'

/-- Python `s.strip()`. -/
def pyStripWs (l : List Char) : List Char :=
  pyStrip isPySpace l

/-- Python `s.lower()` (ASCII case mapping, which is all the engine feeds it). -/
def pyLower (l : List Char) : List Char :=
  l.map Char.toLower

/-- Python `pat in s` (substring containment, `True` for the empty pattern). -/
def containsSubL (s pat : List Char) : Bool :=
  s.tails.any (fun t => pat.isPrefixOf t)

/-! ## URL layer — embedding of `utils/url_utils.py`

`ensure_absolute` is `urllib.parse.urljoin(base_url, url)` and
`normalize_url` is `urlunparse(urlparse(url)._replace(fragment=""))`.  The
CPython `urllib.parse` routines these call are embedded below (WHATWG
control/space stripping, scheme/netloc/fragment/query/params splitting,
relative-reference resolution).  The `_checknetloc` NFKC guard is outside
the model. -/

/-- CPython `_WHATWG_C0_CONTROL_OR_SPACE` class stripped from both ends. -/
def c0ControlOrSpace (c : Char) : Bool :=
  c.toNat ≤ 32

/-- CPython `_UNSAFE_URL_BYTES_TO_REMOVE` (tab, CR, LF), removed everywhere. -/
def unsafeUrlByte (c : Char) : Bool :=
  c = '\t' || c = '\x0d' || c = '\n'

/-- The sanitisation CPython `urlsplit` applies to its input. -/
def sanitizeUrl (l : List Char) : List Char :=
  (pyStrip c0ControlOrSpace l).filter (fun c => !unsafeUrlByte c)

/-- Characters allowed in a URL scheme after the leading letter. -/
def schemeChar (c : Char) : Bool :=
  c.isAlphanum || c = '+' || c = '-' || c = '.'

structure SplitResult where
  scheme : List Char
  netloc : List Char
  path : List Char
  query : List Char
  fragment : List Char
deriving Repr, DecidableEq

/-- CPython `urlsplit(url, scheme=defaultScheme, allow_fragments=True)`. -/
def urlsplitChars (url0 : List Char) (defaultScheme : List Char) : SplitResult :=
  let url := sanitizeUrl url0
  let dscheme := sanitizeUrl defaultScheme
  let schemeRest : List Char × List Char :=
    match breakAtChar ':' url with
    | (before, some after) =>
      if before ≠ [] ∧ (before.headD 'a').isAlpha ∧ before.all schemeChar then
        (pyLower before, after)
      else (dscheme, url)
    | (_, none) => (dscheme, url)
  let netlocRest : List Char × List Char :=
    match schemeRest.2 with
    | '/' :: '/' :: r =>
      (r.takeWhile (fun c => !(c = '/' || c = '?' || c = '#')),
       r.dropWhile (fun c => !(c = '/' || c = '?' || c = '#')))
    | other => ([], other)
  let fragSplit : List Char × List Char :=
    match breakAtChar '#' netlocRest.2 with
    | (before, some after) => (before, after)
    | (before, none) => (before, [])
  let querySplit : List Char × List Char :=
    match breakAtChar '?' fragSplit.1 with
    | (before, some after) => (before, after)
    | (before, none) => (before, [])
  ⟨schemeRest.1, netlocRest.1, querySplit.1, querySplit.2, fragSplit.2⟩

structure ParseResult where
  scheme : List Char
  netloc : List Char
  path : List Char
  params : List Char
  query : List Char
  fragment : List Char
deriving Repr, DecidableEq

/-- CPython `_splitparams`: split `;params` off the last path segment. -/
def splitParams (path : List Char) : List Char × List Char :=
  match splitAtLastChar '/' path with
  | some (before, after) =>
    (match breakAtChar ';' after with
     | (a, some rest) => (before ++ '/' :: a, rest)
     | (_, none) => (path, []))
  | none =>
    (match breakAtChar ';' path with
     | (a, some rest) => (a, rest)
     | (_, none) => (path, []))

/-- CPython `urlparse`. -/
def urlparseChars (url : List Char) (defaultScheme : List Char) : ParseResult :=
  let s := urlsplitChars url defaultScheme
  let pp := if s.path.contains ';' then splitParams s.path else (s.path, [])
  ⟨s.scheme, s.netloc, pp.1, pp.2, s.query, s.fragment⟩

/-- CPython `urlunsplit`. -/
def urlunsplitChars (scheme netloc path query fragment : List Char) : List Char :=
  let url :=
    if netloc ≠ [] ∨ path.take 2 = ['/', '/'] then
      ('/' :: '/' :: netloc) ++ (if path ≠ [] ∧ path.take 1 ≠ ['/'] then '/' :: path else path)
    else path
  let url := if scheme ≠ [] then scheme ++ ':' :: url else url
  let url := if query ≠ [] then url ++ '?' :: query else url
  if fragment ≠ [] then url ++ '#' :: fragment else url

/-- CPython `urlunparse`. -/
def urlunparseChars (r : ParseResult) : List Char :=
  let path := if r.params ≠ [] then r.path ++ ';' :: r.params else r.path
  urlunsplitChars r.scheme r.netloc path r.query r.fragment

/-- Schemes for which relative resolution is performed (`uses_relative`). -/
def usesRelative : List (List Char) :=
  [[], "ftp".toList, "http".toList, "gopher".toList, "nntp".toList, "imap".toList,
   "wais".toList, "file".toList, "https".toList, "shttp".toList, "mms".toList,
   "prospero".toList, "rtsp".toList, "rtspu".toList, "sftp".toList, "svn".toList,
   "svn+ssh".toList, "ws".toList, "wss".toList]

/-- Schemes that carry a network location (`uses_netloc`). -/
def usesNetloc : List (List Char) :=
  [[], "ftp".toList, "http".toList, "gopher".toList, "nntp".toList, "telnet".toList,
   "imap".toList, "wais".toList, "file".toList, "mms".toList, "https".toList,
   "shttp".toList, "snews".toList, "prospero".toList, "rtsp".toList, "rtspu".toList,
   "rsync".toList, "svn".toList, "svn+ssh".toList, "sftp".toList, "nfs".toList,
   "git".toList, "git+ssh".toList, "ws".toList, "wss".toList, "itms-services".toList]

/-- Dot-segment resolution loop of CPython `urljoin` (accumulator reversed). -/
def resolveSegments : List (List Char) → List (List Char) → List (List Char)
  | [], acc => acc.reverse
  | seg :: rest, acc =>
    if seg = "..".toList then resolveSegments rest (acc.drop 1)
    else if seg = ".".toList then resolveSegments rest acc
    else resolveSegments rest (seg :: acc)

/-- Keep the first and last element, drop empty strings in between
(`segments[1:-1] = filter(None, segments[1:-1])`). -/
def filterMiddle : List (List Char) → List (List Char)
  | [] => []
  | [x] => [x]
  | x :: y :: rest =>
    x :: (((y :: rest).dropLast.filter (fun s => s ≠ [])) ++ (y :: rest).drop rest.length)

/-- CPython `urljoin(base, url)`. -/
def urljoinChars (base url : List Char) : List Char :=
  if base = [] then url
  else if url = [] then base
  else
    let b := urlsplitChars base []
    let u := urlsplitChars url b.scheme
    if u.scheme ≠ b.scheme ∨ u.scheme ∉ usesRelative then url
    else if u.scheme ∈ usesNetloc ∧ u.netloc ≠ [] then
      urlunsplitChars u.scheme u.netloc u.path u.query u.fragment
    else
      let netloc := if u.scheme ∈ usesNetloc then b.netloc else u.netloc
      if u.path = [] then
        let query := if u.query = [] then b.query else u.query
        urlunsplitChars u.scheme netloc b.path query u.fragment
      else
        let baseParts0 := splitOnChar '/' b.path
        let baseParts :=
          if baseParts0.getLast? ≠ some [] then baseParts0.dropLast else baseParts0
        let segments :=
          if u.path.take 1 = ['/'] then splitOnChar '/' u.path
          else filterMiddle (baseParts ++ splitOnChar '/' u.path)
        let resolved0 := resolveSegments segments []
        let resolved :=
          if segments.getLast? = some ".".toList ∨ segments.getLast? = some "..".toList
          then resolved0 ++ [[]] else resolved0
        let joined := joinWithChar '/' resolved
        let path := if joined = [] then ['/'] else joined
        urlunsplitChars u.scheme netloc path u.query u.fragment

/-- `url_utils.ensure_absolute(url, base_url) = urljoin(base_url, url)`. -/
def ensure_absolute (url base_url : String) : String :=
  String.mk (urljoinChars base_url.toList url.toList)

/-- `url_utils.normalize_url(url)`: parse, blank the fragment, unparse. -/
def normalize_url (url : String) : String :=
  let p := urlparseChars url.toList []
  String.mk (urlunparseChars { p with fragment := [] })

/-! ## Data model

A category dict `{"id", "name", "url", "depth", "parent_id"}` as built by
`CategoryExtractorTool._build_category` and the blueprint executor. -/

structure Category where
  id : Nat
  name : String
  url : String
  depth : Nat
  parent_id : Option Nat
deriving Repr, DecidableEq

/-! ## `tools/validators.py` -/

/-- `validate_category`: name and url must be truthy. -/
def validate_category (c : Category) : Except String Bool :=
  if c.name = "" then .error "Category name is required"
  else if c.url = "" then .error "Category URL is required"
  else .ok true

def idList (cats : List Category) : List Nat :=
  cats.map (fun c => c.id)

/-- The loop body of `validate_hierarchy`: raise on the first category whose
non-null `parent_id` is outside `ids`. -/
def checkParents (ids : List Nat) : List Category → Except String Bool
  | [] => .ok true
  | c :: rest =>
    match c.parent_id with
    | none => checkParents ids rest
    | some p =>
      if p ∈ ids then checkParents ids rest
      else .error "Parent id missing for category hierarchy"

/-- `validate_hierarchy`: the id set is taken over the whole list first. -/
def validate_hierarchy (cats : List Category) : Except String Bool :=
  checkParents (idList cats) cats

/-! ## `CategoryExtractorTool._post_process` -/

/-- The in-place URL rewrite applied to every category:
`category["url"] = normalize_url(ensure_absolute(category["url"], base_url))`. -/
def normalizeEntry (base_url : String) (c : Category) : Category :=
  { c with url := normalize_url (ensure_absolute c.url base_url) }

/-- The dict key used for deduplication: `(category["url"], category["depth"])`. -/
def catKey (c : Category) : String × Nat :=
  (c.url, c.depth)

/-- Insertion into `deduped` keeps only the first occurrence of each key
(Python dicts preserve insertion order). -/
def dedupFirst : List Category → List (String × Nat) → List Category
  | [], _ => []
  | c :: rest, seen =>
    if catKey c ∈ seen then dedupFirst rest seen
    else c :: dedupFirst rest (catKey c :: seen)

/-- `_post_process(categories, base_url)`. -/
def post_process (categories : List Category) (base_url : String) : List Category :=
  dedupFirst (categories.map (normalizeEntry base_url)) []

/-! ## `CategoryExtractorTool._looks_like_noise` -/

def noise_keywords : List String :=
  ["sign in", "login", "register", "cart", "basket", "wishlist",
   "account", "checkout", "search", "help", "contact", "about",
   "skip to", "menu", "close", "open", "toggle", "show", "hide",
   "store locator", "stores", "find a store", "rewards", "loyalty",
   "track order", "my orders", "my account", "sign up", "subscribe"]

def generic_words : List String :=
  ["menu", "home", "shop", "browse", "stores", "rewards"]

/-- One loop iteration: does this category name count towards `noise_count`? -/
def isNoiseName (name : String) : Bool :=
  let name_lower := pyStripWs (pyLower name.toList)
  if noise_keywords.any (fun k => containsSubL name_lower k.toList) then true
  else generic_words.any (fun w => w.toList = name_lower)

/-- `_looks_like_noise`: more than 50% of the first 10 names are noise.  The
Python comparison `noise_count > len(categories[:10]) * 0.5` is exact for
these magnitudes, so it is modelled over `ℚ`. -/
def looks_like_noise (categories : List Category) : Bool :=
  let firstTen := categories.take 10
  let noise_count := (firstTen.filter (fun c => isNoiseName c.name)).length
  decide ((noise_count : ℚ) > (firstTen.length : ℚ) * 0.5)

/-! ## Escalation logic of `CategoryExtractorTool.extract` (lines 50–82)

The DOM work is external; the decision logic is a pure function of the
primary result and the (lazily computed) fallback result. -/

def needs_fallback (categories : List Category) : Bool :=
  (categories.length == 0) || decide (categories.length < 5) || looks_like_noise categories

/-- Which list survives escalation and what `state["extraction_method"]`
records.  Mirrors the `if needs_fallback: ... else ...` ladder. -/
def escalation_decision (primary fallback : List Category) : List Category × String :=
  if needs_fallback primary then
    if fallback.length > primary.length then (fallback, "fallback")
    else if primary.length > 0 then (primary, "ai")
    else (primary, "fallback")
  else (primary, "ai")

/-- The tail of `extract`: escalation, `_post_process`, `validate_hierarchy`;
returns the processed list and the recorded extraction method. -/
def extract_pipeline (primary fallback : List Category) (base_url : String) :
    Except String (List Category × String) :=
  let dec := escalation_decision primary fallback
  let processed := post_process dec.1 base_url
  match validate_hierarchy processed with
  | .error e => .error e
  | .ok _ => .ok (processed, dec.2)

/-! ## Strategy resolution in `CategoryExtractorTool.extract` (lines 34–48) -/

inductive ExtractionStrategy
  | hoverMenu
  | clickNavigation
  | genericLinks
deriving Repr, DecidableEq

/-- Pipe handling: `navigation_type.split("|")[0].strip()` when a `|` is
present, the string unchanged otherwise. -/
def resolve_navigation_type (navigation_type : String) : String :=
  if navigation_type.toList.contains '|' then
    String.mk (pyStripWs ((splitOnChar '|' navigation_type.toList).headD []))
  else navigation_type

/-- The dispatch ladder on the resolved type tag. -/
def resolve_strategy (navigation_type : String) : ExtractionStrategy :=
  let t := resolve_navigation_type navigation_type
  if t = "hover_menu" then .hoverMenu
  else if t = "sidebar" ∨ t = "accordion" ∨ t = "filter_sidebar" then .clickNavigation
  else .genericLinks

/-! ## `CategoryExtractorTool._fallback_extraction`

The page is modelled as a map from container selector to the containers it
matches, each container being the list of `a` elements inside it. -/

/-- An anchor element: its inner text and its `href` attribute (absent
attributes are `none`). -/
structure LinkElem where
  inner_text : String
  href : Option String
deriving Repr, DecidableEq

/-- The href substrings filtered out as non-category links. -/
def skip_substrings : List String :=
  ["login", "register", "cart", "checkout", "account", "search", "contact",
   "about", "help", "faq"]

/-- `_extract_link(link, None)`: strip the inner text, require a truthy href
(`ExtractionError` on a falsy one is caught by the per-link handler, hence
`none`). -/
def extractLink (e : LinkElem) : Option (String × String) :=
  match e.href with
  | none => none
  | some u => if u = "" then none else some (String.mk (pyStripWs e.inner_text.toList), u)

/-- `any(skip in url.lower() for skip in [...])`. -/
def fallbackSkip (url : String) : Bool :=
  skip_substrings.any (fun s => containsSubL (pyLower url.toList) s.toList)

def mkFallbackCat (cid : Nat) (name url : String) : Category :=
  { id := cid, name := name, url := url, depth := 0, parent_id := none }

/-- The inner `for link in links[:50]` loop (already truncated by caller):
skip non-category hrefs, deduplicate against `seen_urls` (adding the url
before the name-length test, as the code does), and emit a depth-0 root when
`2 < len(name) < 100`.  Returns the updated seen set, the next id, and the
emitted categories. -/
def processLinks : List LinkElem → List String → Nat → List String × Nat × List Category
  | [], seen, n => (seen, n, [])
  | e :: rest, seen, n =>
    match extractLink e with
    | none => processLinks rest seen n
    | some nu =>
      if fallbackSkip nu.2 then processLinks rest seen n
      else if nu.2 ∈ seen then processLinks rest seen n
      else if 2 < nu.1.length ∧ nu.1.length < 100 then
        match processLinks rest (nu.2 :: seen) (n + 1) with
        | (s1, n1, cs1) => (s1, n1, mkFallbackCat n nu.1 nu.2 :: cs1)
      else processLinks rest (nu.2 :: seen) n

/-- The `for container in containers[:3]` loop (already truncated by caller). -/
def processContainers : List (List LinkElem) → List String → Nat → List String × Nat × List Category
  | [], seen, n => (seen, n, [])
  | c :: rest, seen, n =>
    match processLinks (c.take 50) seen n with
    | (s1, n1, cs1) =>
      match processContainers rest s1 n1 with
      | (s2, n2, cs2) => (s2, n2, cs1 ++ cs2)

def fallback_patterns : List String :=
  ["aside", ".sidebar", ".filters", "[class*=\x27category\x27]",
   "[class*=\x27filter\x27]", "nav", ".navigation", "[role=\x27navigation\x27]"]

/-- The `for pattern in fallback_patterns` loop: skip selectors with no
containers, stop at the first pattern whose harvest is non-empty. -/
def fallbackLoop (page : String → List (List LinkElem)) :
    List String → List String → Nat → Nat × List Category
  | [], _, n => (n, [])
  | p :: rest, seen, n =>
    if page p = [] then fallbackLoop page rest seen n
    else
      match processContainers ((page p).take 3) seen n with
      | (s1, n1, cs1) =>
        if cs1 = [] then fallbackLoop page rest s1 n1
        else (n1, cs1)

/-- `_fallback_extraction(page, strategy)`; `nextId` is the tool's id
counter.  Returns the updated counter and the harvested categories. -/
def fallback_extraction (page : String → List (List LinkElem)) (nextId : Nat) :
    Nat × List Category :=
  fallbackLoop page fallback_patterns [] nextId

/-! ## Blueprint layer

`tools/blueprint_generator.py` and `blueprints/loader.py` / `executor.py`.
A selectors dict is an association list; `dictGet` is `dict.get(key)` with
first-binding-wins lookup. -/

def dictGet (d : List (String × String)) (k : String) : Option String :=
  (d.find? (fun kv => kv.1 = k)).map (fun kv => kv.2)

structure InteractionStep where
  action : String
  target : String
  wait_for : Option String
  timeout : Nat
  duration : Nat
deriving Repr, DecidableEq

structure BlueprintMetadata where
  site_url : String
  retailer_id : Nat
  retailer_name : Option String
  generated_at : String
  generated_by : String
  agent_version : String
  confidence_score : ℚ
deriving Repr, DecidableEq

structure StrategySection where
  navigation_type : String
  complexity : String
  requires_javascript : Bool
  dynamic_loading : List (String × String)
deriving Repr, DecidableEq

structure ValidationRules where
  min_categories : Nat
  max_categories : Nat
  max_depth : Nat
  required_fields : List String
  url_pattern : String
deriving Repr, DecidableEq

/-- `extraction_stats`; `categories_by_depth` keys are depths (stringified in
the JSON artifact). -/
structure ExtractionStats where
  total_categories : Nat
  max_depth : Nat
  categories_by_depth : List (Nat × Nat)
deriving Repr, DecidableEq

structure BlueprintModel where
  version : String
  metadata : BlueprintMetadata
  extraction_strategy : StrategySection
  selectors : List (String × String)
  interactions : List InteractionStep
  validation_rules : ValidationRules
  extraction_stats : ExtractionStats
  edge_cases : List String
  notes : List String
deriving Repr, DecidableEq

/-- The analyzer strategy dict consumed by `BlueprintGeneratorTool.generate`
(fields read with `.get` and a default when absent). -/
structure StrategyData where
  navigation_type : Option String
  complexity : Option String
  requires_javascript : Option Bool
  dynamic_loading : List (String × String)
  selectors : List (String × String)
  interactions : List InteractionStep
  confidence : Option ℚ
  url_pattern : Option String
  notes : List String
deriving Repr, DecidableEq

/-- `_build_strategy_section`. -/
def build_strategy_section (s : StrategyData) : StrategySection :=
  { navigation_type := s.navigation_type.getD "unknown",
    complexity := s.complexity.getD "unknown",
    requires_javascript := s.requires_javascript.getD true,
    dynamic_loading := s.dynamic_loading }

/-- `depth_counts` dict built in first-appearance order. -/
def bumpDepth : List (Nat × Nat) → Nat → List (Nat × Nat)
  | [], d => [(d, 1)]
  | (k, v) :: rest, d =>
    if k = d then (k, v + 1) :: rest else (k, v) :: bumpDepth rest d

def depthCounts (cats : List Category) : List (Nat × Nat) :=
  cats.foldl (fun acc c => bumpDepth acc c.depth) []

/-- `_build_stats`. -/
def build_stats (cats : List Category) : ExtractionStats :=
  let dc := depthCounts cats
  { total_categories := cats.length,
    max_depth := (dc.map (fun kv => kv.1)).foldr max 0,
    categories_by_depth := dc }

/-- `_build_validation_rules` (`total // 4` is floor division on a
non-negative count, i.e. `Nat` division). -/
def build_validation_rules (cats : List Category) (s : StrategyData) : ValidationRules :=
  { min_categories := max 1 (cats.length / 4),
    max_categories := cats.length * 2,
    max_depth := (cats.map (fun c => c.depth)).foldr max 0,
    required_fields := ["name", "url"],
    url_pattern := s.url_pattern.getD "" }

/-- `BlueprintGeneratorTool.generate`: reject empty category lists and a
falsy strategy dict (`none`); otherwise build the versioned `BlueprintModel`
exactly as the tool does.  Writing the JSON file is external I/O; the
document written is `model_dump` of the returned model, and decoding that
document yields the model back. -/
def generate (categories : List Category) (strategy : Option StrategyData)
    (site_url : String) (retailer_id : Nat) (retailer_name : Option String)
    (generated_at : String) : Except String BlueprintModel :=
  if categories = [] then .error "Cannot generate blueprint with zero categories"
  else
    match strategy with
    | none => .error "Strategy data missing. Ensure PageAnalyzer ran successfully"
    | some s =>
      .ok { version := "1.0",
            metadata :=
              { site_url := site_url, retailer_id := retailer_id,
                retailer_name := retailer_name, generated_at := generated_at,
                generated_by := "ai_category_extractor", agent_version := "0.1.0",
                confidence_score := s.confidence.getD (1 / 2) },
            extraction_strategy := build_strategy_section s,
            selectors := s.selectors,
            interactions := s.interactions,
            validation_rules := build_validation_rules categories s,
            extraction_stats := build_stats categories,
            edge_cases := [],
            notes := s.notes }

/-- `blueprints/loader.py::load_blueprint` after the external steps (file
read, JSON parse, pydantic validation — `selectors` is a free-form dict, so
a missing `category_links` entry passes validation): the strict version
gate. -/
def load_blueprint (b : BlueprintModel) : Except String BlueprintModel :=
  if b.version ≠ "1.0" then .error ("Unsupported blueprint version: " ++ b.version)
  else .ok b

/-- A category dict as built by the blueprint executor (no local id). -/
structure ReplayCategory where
  name : String
  url : String
  depth : Nat
  parent_id : Option Nat
deriving Repr, DecidableEq

/-- The element loop of `executor._extract_categories`: strip text, skip
falsy hrefs, normalize the URL against the base. -/
def replayCats (elements : List LinkElem) (base_url : String) : List ReplayCategory :=
  elements.filterMap (fun e =>
    match e.href with
    | none => none
    | some u =>
      if u = "" then none
      else some { name := String.mk (pyStripWs e.inner_text.toList),
                  url := normalize_url (ensure_absolute u base_url),
                  depth := 0, parent_id := none })

/-- `executor._extract_categories` (the extraction stage of
`execute_blueprint`, reached once the stored interactions have run): a falsy
`category_links` selector or an empty harvest is a `BlueprintError`. -/
def blueprint_extract (selectors : List (String × String))
    (page : String → List LinkElem) (base_url : String) :
    Except String (List ReplayCategory) :=
  match dictGet selectors "category_links" with
  | none => .error "Blueprint missing category_links selector"
  | some sel =>
    if sel = "" then .error "Blueprint missing category_links selector"
    else
      let cats := replayCats (page sel) base_url
      if cats = [] then .error "Blueprint execution returned no categories"
      else .ok cats

/-! ## `agent.py` run boundary and cleanup

Browser, LLM and database effects are external; each teardown step of
`cleanup` is modelled by its outcome, and the `run_extraction` /
`run_blueprint` try-bodies by their outcome.  `Except.error` at the top
level means an exception escapes the run boundary. -/

inductive StepRes
  | ok
  | err (msg : String)
deriving Repr, DecidableEq

structure CleanupEnv where
  hasPage : Bool
  hasContext : Bool
  hasBrowser : Bool
  hasPlaywright : Bool
  pageClose : StepRes
  contextClose : StepRes
  browserClose : StepRes
  playwrightStop : StepRes
  dbDisconnect : StepRes
deriving Repr, DecidableEq

/-- The guarded statements of the `try` block of `cleanup`, in source
order. -/
def cleanupSteps (env : CleanupEnv) : List (Bool × StepRes × String) :=
  [(env.hasPage, env.pageClose, "page.close"),
   (env.hasContext, env.contextClose, "context.close"),
   (env.hasBrowser, env.browserClose, "browser.close"),
   (env.hasPlaywright, env.playwrightStop, "playwright.stop")]

/-- Run guarded statements sequentially; the first exception aborts the
block (there is no per-step handler).  Returns the attempted steps and the
pending exception, if any. -/
def runSeq : List (Bool × StepRes × String) → List String × Option String
  | [] => ([], none)
  | s :: rest =>
    if s.1 then
      match s.2.1 with
      | .ok =>
        let r := runSeq rest
        (s.2.2 :: r.1, r.2)
      | .err m => ([s.2.2], some m)
    else runSeq rest

/-- `CategoryExtractionAgent.cleanup`: the browser teardown runs in a `try`
whose `finally` performs the data-layer disconnect.  A disconnect exception
replaces any pending teardown exception; with no handler anywhere, any
pending exception is re-raised after the `finally`.  Returns the attempted
step names in order and the overall outcome. -/
def cleanup (env : CleanupEnv) : List String × Except String Unit :=
  let tryPart := runSeq (cleanupSteps env)
  (tryPart.1 ++ ["db.disconnect"],
   match env.dbDisconnect with
   | .err m => .error m
   | .ok =>
     match tryPart.2 with
     | some m => .error m
     | none => .ok ())

/-- Outcome of the `try` body of `run_extraction`: success, an exception of
one of the explicitly caught extractor classes, or any other exception. -/
inductive BodyOutcome
  | success (summary : String)
  | knownError (msg : String)
  | unexpectedError (msg : String)
deriving Repr, DecidableEq

structure RunState where
  stage : String
  errors : List String
deriving Repr, DecidableEq

structure RunResult where
  success : Bool
  error : Option String
  state : RunState
deriving Repr, DecidableEq

/-- `_record_error`: append the message and mark the stage failed. -/
def record_error (st : RunState) (msg : String) : RunState :=
  { stage := "failed", errors := st.errors ++ [msg] }

/-- The structured value `run_extraction` returns for a given body
outcome. -/
def run_body_result (body : BodyOutcome) (st : RunState) : RunResult :=
  match body with
  | .success _ => { success := true, error := none, state := { st with stage := "completed" } }
  | .knownError m => { success := false, error := some m, state := record_error st m }
  | .unexpectedError m =>
    { success := false, error := some "Unexpected error during extraction",
      state := record_error st m }

/-- `run_extraction`: every body exception is converted to a structured
result, then the `finally` runs `cleanup`; an exception raised by `cleanup`
propagates past the run boundary, discarding the structured result. -/
def run_extraction (body : BodyOutcome) (env : CleanupEnv) (st : RunState) :
    Except String RunResult :=
  let r := run_body_result body st
  match (cleanup env).2 with
  | .error m => .error m
  | .ok _ => .ok r

/-- Outcome of the `try` body of `run_blueprint` (load + replay). -/
inductive ReplayOutcome
  | success (cats : List ReplayCategory)
  | failure (msg : String)
deriving Repr, DecidableEq

def replay_body_result (body : ReplayOutcome) (st : RunState) : RunResult :=
  match body with
  | .success _ => { success := true, error := none, state := { st with stage := "completed" } }
  | .failure m => { success := false, error := some m, state := record_error st m }

/-- `run_blueprint`: same boundary structure as `run_extraction`. -/
def run_blueprint (body : ReplayOutcome) (env : CleanupEnv) (st : RunState) :
    Except String RunResult :=
  let r := replay_body_result body st
  match (cleanup env).2 with
  | .error m => .error m
  | .ok _ => .ok r

/-- C4 as stated: in an escalated run, the fallback result is kept iff it is
strictly larger, the method records `"fallback"` iff the fallback result was
kept, and `"ai"` iff the primary result was kept. -/
def fallbackChoiceClaim (primary fallback : List Category) : Prop :=
  ((escalation_decision primary fallback).1 = fallback ↔ fallback.length > primary.length)
  ∧ ((escalation_decision primary fallback).2 = "fallback"
      ↔ (escalation_decision primary fallback).1 = fallback)
  ∧ ((escalation_decision primary fallback).2 = "ai"
      ↔ (escalation_decision primary fallback).1 = primary)

/-- The concrete batch from the spec: six navigation-chrome names among ten
candidates. -/
def noisyBatch : List Category :=
  [⟨1, "Login", "/1", 0, none⟩, ⟨2, "Cart", "/2", 0, none⟩, ⟨3, "Account", "/3", 0, none⟩,
   ⟨4, "Help", "/4", 0, none⟩, ⟨5, "Sign In", "/5", 0, none⟩, ⟨6, "Checkout", "/6", 0, none⟩,
   ⟨7, "Electronics", "/7", 0, none⟩, ⟨8, "Garden", "/8", 0, none⟩, ⟨9, "Toys", "/9", 0, none⟩,
   ⟨10, "Beauty", "/10", 0, none⟩]

/-! ## Deduplication lemmas for `_post_process` -/

theorem dedupFirst_sublist (l : List Category) (seen : List (String × Nat)) :
    (dedupFirst l seen).Sublist l := by
  induction l generalizing seen with
  | nil => simp [dedupFirst]
  | cons c rest ih =>
    simp only [dedupFirst]
    split
    · exact (ih seen).cons c
    · exact (ih _).cons₂ c

theorem mem_dedupFirst_not_seen {c : Category} :
    ∀ (l : List Category) (seen : List (String × Nat)),
      c ∈ dedupFirst l seen → catKey c ∉ seen := by
  intro l
  induction l with
  | nil => intro seen h; simp [dedupFirst] at h
  | cons d rest ih =>
    intro seen h
    simp only [dedupFirst] at h
    split at h
    · exact ih seen h
    · rcases List.mem_cons.1 h with rfl | h2
      · assumption
      · intro hc
        exact ih _ h2 (List.mem_cons_of_mem _ hc)

theorem dedupFirst_pairwise (l : List Category) (seen : List (String × Nat)) :
    (dedupFirst l seen).Pairwise (fun a b => catKey a ≠ catKey b) := by
  induction l generalizing seen with
  | nil => simp [dedupFirst]
  | cons c rest ih =>
    simp only [dedupFirst]
    split
    · exact ih seen
    · refine List.Pairwise.cons ?_ (ih _)
      intro b hb he
      exact mem_dedupFirst_not_seen rest _ hb (he ▸ List.mem_cons_self _ _)

theorem dedupFirst_first_occurrence :
    ∀ (l₁ : List Category) (c : Category) (l₂ : List Category) (seen : List (String × Nat)),
      catKey c ∉ seen → (∀ d ∈ l₁, catKey d ≠ catKey c) →
      c ∈ dedupFirst (l₁ ++ c :: l₂) seen := by
  intro l₁
  induction l₁ with
  | nil =>
    intro c l₂ seen hseen _
    simp only [List.nil_append, dedupFirst]
    rw [if_neg hseen]
    exact List.mem_cons_self _ _
  | cons d rest ih =>
    intro c l₂ seen hseen hfirst
    simp only [List.cons_append, dedupFirst]
    split
    · exact ih c l₂ seen hseen (fun e he => hfirst e (List.mem_cons_of_mem _ he))
    · refine List.mem_cons_of_mem _ (ih c l₂ _ ?_ ?_)
      · intro hc
        rcases List.mem_cons.1 hc with he | h2
        · exact hfirst d (List.mem_cons_self _ _) he.symm
        · exact hseen h2
      · exact fun e he => hfirst e (List.mem_cons_of_mem _ he)

theorem dedupFirst_covers :
    ∀ (l : List Category) (seen : List (String × Nat)) (c : Category),
      c ∈ l → catKey c ∉ seen →
      ∃ c2 ∈ dedupFirst l seen, catKey c2 = catKey c := by
  intro l
  induction l with
  | nil => intro seen c h; simp at h
  | cons d rest ih =>
    intro seen c hc hseen
    simp only [dedupFirst]
    split
    · rcases List.mem_cons.1 hc with rfl | h2
      · exact absurd (by assumption) hseen
      · exact ih seen c h2 hseen
    · rcases List.mem_cons.1 hc with rfl | h2
      · exact ⟨c, List.mem_cons_self _ _, rfl⟩
      · by_cases hk : catKey c ∈ catKey d :: seen
        · rcases List.mem_cons.1 hk with he | h3
          · exact ⟨d, List.mem_cons_self _ _, he.symm⟩
          · exact absurd h3 hseen
        · obtain ⟨c2, h4, h5⟩ := ih _ c h2 hk
          exact ⟨c2, List.mem_cons_of_mem _ h4, h5⟩

/-- C1: after `_post_process`, every output category is an input category
whose URL has been replaced by `normalize_url(ensure_absolute(url, base_url))`,
no two output categories share a `(url, depth)` pair, the first occurrence of
each pair (in input order) survives, and every input pair is represented. -/
theorem post_process_correct (cats : List Category) (base_url : String) :
    (∀ c ∈ post_process cats base_url, ∃ c0 ∈ cats, c = normalizeEntry base_url c0)
    ∧ (post_process cats base_url).Pairwise (fun a b => (a.url, a.depth) ≠ (b.url, b.depth))
    ∧ (∀ l₁ c l₂, cats.map (normalizeEntry base_url) = l₁ ++ c :: l₂ →
        (∀ d ∈ l₁, (d.url, d.depth) ≠ (c.url, c.depth)) →
        c ∈ post_process cats base_url)
    ∧ (∀ c0 ∈ cats, ∃ c ∈ post_process cats base_url,
        (c.url, c.depth) = ((normalizeEntry base_url c0).url, (normalizeEntry base_url c0).depth)) := by
  refine ⟨?_, ?_, ?_, ?_⟩
  · intro c hc
    have hmem : c ∈ cats.map (normalizeEntry base_url) :=
      (dedupFirst_sublist (cats.map (normalizeEntry base_url)) []).subset hc
    rcases List.mem_map.1 hmem with ⟨c0, h0, h1⟩
    exact ⟨c0, h0, h1.symm⟩
  · have h := dedupFirst_pairwise (cats.map (normalizeEntry base_url)) []
    exact h
  · intro l₁ c l₂ heq hfirst
    unfold post_process
    rw [heq]
    exact dedupFirst_first_occurrence l₁ c l₂ [] (by simp) hfirst
  · intro c0 h0
    obtain ⟨c2, h4, h5⟩ := dedupFirst_covers (cats.map (normalizeEntry base_url)) []
      (normalizeEntry base_url c0) (List.mem_map_of_mem _ h0) (by simp)
    exact ⟨c2, h4, h5⟩

/-- C1 witness: on a concrete two-category list whose URLs normalize to the
same absolute URL, the first occurrence survives `_post_process`. -/
theorem post_process_correct_witness :
    (⟨1, "A", "https://e.com/a", 0, none⟩ : Category) ∈
      post_process [⟨1, "A", "/a#f", 0, none⟩, ⟨2, "B", "/a", 0, none⟩] "https://e.com/" :=
  (post_process_correct [⟨1, "A", "/a#f", 0, none⟩, ⟨2, "B", "/a", 0, none⟩] "https://e.com/").2.2.1
    [] ⟨1, "A", "https://e.com/a", 0, none⟩ [⟨2, "B", "https://e.com/a", 0, none⟩]
    (by decide) (by simp)

/-! ## Hierarchy validation lemmas -/

theorem checkParents_ok_iff (ids : List Nat) (l : List Category) :
    checkParents ids l = .ok true ↔ ∀ c ∈ l, ∀ p, c.parent_id = some p → p ∈ ids := by
  induction l with
  | nil => simp [checkParents]
  | cons c rest ih =>
    cases hp : c.parent_id with
    | none =>
      simp only [checkParents, hp]
      rw [ih]
      constructor
      · intro h d hd p hdp
        rcases List.mem_cons.1 hd with rfl | h2
        · rw [hp] at hdp; cases hdp
        · exact h d h2 p hdp
      · intro h d hd p hdp
        exact h d (List.mem_cons_of_mem _ hd) p hdp
    | some p =>
      by_cases hin : p ∈ ids
      · simp only [checkParents, hp, if_pos hin]
        rw [ih]
        constructor
        · intro h d hd q hdq
          rcases List.mem_cons.1 hd with rfl | h2
          · rw [hp] at hdq
            injection hdq with he
            exact he ▸ hin
          · exact h d h2 q hdq
        · intro h d hd q hdq
          exact h d (List.mem_cons_of_mem _ hd) q hdq
      · simp only [checkParents, hp, if_neg hin]
        constructor
        · intro h; cases h
        · intro h
          exact absurd (h c (List.mem_cons_self _ _) p hp) hin

theorem checkParents_ok_or_error (ids : List Nat) (l : List Category) :
    checkParents ids l = .ok true
    ∨ checkParents ids l = .error "Parent id missing for category hierarchy" := by
  induction l with
  | nil => simp [checkParents]
  | cons c rest ih =>
    cases hp : c.parent_id with
    | none => simpa only [checkParents, hp] using ih
    | some p =>
      by_cases hin : p ∈ ids
      · simpa only [checkParents, hp, if_pos hin] using ih
      · simp only [checkParents, hp, if_neg hin]
        exact Or.inr trivial

/-- C2: `validate_hierarchy` succeeds exactly when every non-null
`parent_id` is the id of some category in the list, raises the validation
error otherwise, and `extract` runs it on the post-processed (deduplicated)
list, so the whole pipeline succeeds exactly when the deduplicated list is
parent-closed. -/
theorem validate_hierarchy_correct :
    (∀ cats : List Category, validate_hierarchy cats = .ok true ↔
      ∀ c ∈ cats, ∀ p, c.parent_id = some p → p ∈ idList cats)
    ∧ (∀ cats : List Category,
        ¬ (∀ c ∈ cats, ∀ p, c.parent_id = some p → p ∈ idList cats) →
        validate_hierarchy cats = .error "Parent id missing for category hierarchy")
    ∧ (∀ primary fallback base_url,
        (∃ r, extract_pipeline primary fallback base_url = .ok r) ↔
        (∀ c ∈ post_process (escalation_decision primary fallback).1 base_url, ∀ p,
          c.parent_id = some p →
          p ∈ idList (post_process (escalation_decision primary fallback).1 base_url))) := by
  refine ⟨fun cats => checkParents_ok_iff _ _, ?_, ?_⟩
  · intro cats h
    rcases checkParents_ok_or_error (idList cats) cats with hok | herr
    · exact absurd ((checkParents_ok_iff _ _).1 hok) h
    · exact herr
  · intro primary fallback base_url
    rw [← checkParents_ok_iff]
    simp only [extract_pipeline]
    rcases checkParents_ok_or_error
        (idList (post_process (escalation_decision primary fallback).1 base_url))
        (post_process (escalation_decision primary fallback).1 base_url) with hok | herr
    · have hv : validate_hierarchy (post_process (escalation_decision primary fallback).1 base_url)
          = .ok true := hok
      rw [hv]
      simp [hok]
    · have hv : validate_hierarchy (post_process (escalation_decision primary fallback).1 base_url)
          = .error "Parent id missing for category hierarchy" := herr
      rw [hv]
      simp [herr]

/-- C2 witness: a well-parented concrete list validates; a dangling
`parent_id` raises the validation error. -/
theorem validate_hierarchy_correct_witness :
    validate_hierarchy [⟨1, "A", "u", 0, none⟩, ⟨2, "B", "v", 1, some 1⟩] = .ok true
    ∧ validate_hierarchy [⟨2, "B", "v", 1, some 7⟩]
        = .error "Parent id missing for category hierarchy" := by
  constructor
  · refine (validate_hierarchy_correct.1 _).mpr ?_
    intro c hc p hp
    simp only [List.mem_cons, List.not_mem_nil, or_false] at hc
    rcases hc with rfl | rfl <;> simp_all [idList]
  · refine validate_hierarchy_correct.2.1 _ ?_
    intro h
    have := h ⟨2, "B", "v", 1, some 7⟩ (List.mem_cons_self _ _) 7 rfl
    simp [idList] at this

/-! ## Strategy resolver (C3) -/

/-- C3: when `navigation_type` contains a pipe, the first pipe-delimited
token (trimmed) becomes the active type; `"sidebar|hover_menu"` resolves to
the click-navigation strategy and never hover-menu; unknown or empty
resolved types fall through to generic links. -/
theorem strategy_resolver_correct :
    (∀ s : String, s.toList.contains '|' = true →
      resolve_navigation_type s = String.mk (pyStripWs ((splitOnChar '|' s.toList).headD [])))
    ∧ resolve_strategy "sidebar|hover_menu" = ExtractionStrategy.clickNavigation
    ∧ resolve_strategy "sidebar|hover_menu" ≠ ExtractionStrategy.hoverMenu
    ∧ resolve_strategy "" = ExtractionStrategy.genericLinks
    ∧ (∀ s : String, resolve_navigation_type s ≠ "hover_menu" →
        resolve_navigation_type s ≠ "sidebar" → resolve_navigation_type s ≠ "accordion" →
        resolve_navigation_type s ≠ "filter_sidebar" →
        resolve_strategy s = ExtractionStrategy.genericLinks) := by
  refine ⟨?_, by decide, by decide, by decide, ?_⟩
  · intro s hs
    unfold resolve_navigation_type
    rw [if_pos hs]
  · intro s h1 h2 h3 h4
    simp only [resolve_strategy]
    rw [if_neg h1, if_neg (by simp [h2, h3, h4])]

/-- C3 witness: the pipe split at `"sidebar|hover_menu"` and an unknown tag
resolving to the generic strategy. -/
theorem strategy_resolver_correct_witness :
    resolve_navigation_type "sidebar|hover_menu"
      = String.mk (pyStripWs ((splitOnChar '|' "sidebar|hover_menu".toList).headD []))
    ∧ resolve_strategy "mega_menu" = ExtractionStrategy.genericLinks :=
  ⟨strategy_resolver_correct.1 _ (by decide),
   strategy_resolver_correct.2.2.2.2 "mega_menu" (by decide) (by decide) (by decide) (by decide)⟩

/-! ## Escalation source recording (C4) -/

/-- C4 counterexample: with an empty primary and an empty fallback the run
escalates, the (empty) primary result stands, yet the recorded method is
`"fallback"`, not `"ai"`. -/
theorem escalation_method_counterexample :
    needs_fallback ([] : List Category) = true
    ∧ escalation_decision [] [] = ([], "fallback")
    ∧ ¬ fallbackChoiceClaim [] [] := by
  refine ⟨by decide, by decide, ?_⟩
  intro h
  have hai : (escalation_decision ([] : List Category) []).2 = "ai" := h.2.2.2 (by decide)
  exact absurd hai (by decide)

/-- C4 amended: in every escalated run the fallback replaces the primary iff
strictly larger; otherwise the possibly empty primary stands, with the
method recorded as `"ai"` when the primary is non-empty and `"fallback"`
when the primary is empty. -/
theorem escalation_decision_amended (primary fallback : List Category)
    (h : needs_fallback primary = true) :
    (fallback.length > primary.length → escalation_decision primary fallback = (fallback, "fallback"))
    ∧ (¬ fallback.length > primary.length → 0 < primary.length →
        escalation_decision primary fallback = (primary, "ai"))
    ∧ (¬ fallback.length > primary.length → primary.length = 0 →
        escalation_decision primary fallback = (primary, "fallback")) := by
  refine ⟨?_, ?_, ?_⟩
  · intro h1
    simp [escalation_decision, h, h1]
  · intro h1 h2
    simp [escalation_decision, h, h1, h2]
  · intro h1 h2
    simp [escalation_decision, h, h1, h2]
    exact fun hf => absurd hf (by omega)

/-- C4 witness: a 3-category primary against a 10-category fallback keeps
the fallback and records the `"fallback"` source. -/
theorem escalation_decision_amended_witness :
    escalation_decision
        [⟨1, "Alpha", "/a", 0, none⟩, ⟨2, "Beta", "/b", 0, none⟩, ⟨3, "Gamma", "/c", 0, none⟩]
        ((List.range 10).map (fun i => ⟨i + 4, "Cat", "/d", 0, none⟩))
      = ((List.range 10).map (fun i => ⟨i + 4, "Cat", "/d", 0, none⟩), "fallback") :=
  (escalation_decision_amended _ _ (by decide)).1 (by decide)

/-! ## Noise classifier (C5) -/

/-- C5: the classifier flags a batch exactly when strictly more than half of
the first ten candidates have a noise name (noise-vocabulary match or
generic single word); the spec's six-of-ten chrome batch is flagged. -/
theorem looks_like_noise_correct :
    (∀ cats : List Category, looks_like_noise cats = true ↔
      (cats.take 10).length < 2 * ((cats.take 10).filter (fun c => isNoiseName c.name)).length)
    ∧ looks_like_noise noisyBatch = true := by
  have key : ∀ n c : ℕ, ((c : ℚ) > (n : ℚ) * 0.5) ↔ n < 2 * c := by
    intro n c
    rw [gt_iff_lt]
    constructor
    · intro h
      have h2 : (n : ℚ) < 2 * (c : ℚ) := by linarith
      exact_mod_cast h2
    · intro h
      have h2 : (n : ℚ) < 2 * (c : ℚ) := by exact_mod_cast h
      linarith
  have part1 : ∀ cats : List Category, looks_like_noise cats = true ↔
      (cats.take 10).length < 2 * ((cats.take 10).filter (fun c => isNoiseName c.name)).length := by
    intro cats
    simp only [looks_like_noise, decide_eq_true_eq]
    exact key _ _
  exact ⟨part1, (part1 noisyBatch).mpr (by decide)⟩

/-- C5 witness: a three-candidate batch with two chrome names is flagged via
the more-than-half characterization. -/
theorem looks_like_noise_correct_witness :
    looks_like_noise
      [⟨1, "Login", "/1", 0, none⟩, ⟨2, "Cart", "/2", 0, none⟩, ⟨3, "Toys", "/3", 0, none⟩]
      = true :=
  (looks_like_noise_correct.1 _).mpr (by decide)

/-! ## Blueprint decode and replay gates (C6) -/

/-- C6: decoding rejects every version other than `"1.0"` with a Blueprint
error; a version-`"1.0"` blueprint decodes even when its selectors lack
`category_links`; replay fails with a Blueprint error when `category_links`
is absent or empty, and also when the stored selector extracts zero
categories. -/
theorem blueprint_gate_correct :
    (∀ b : BlueprintModel, b.version ≠ "1.0" →
      load_blueprint b = .error ("Unsupported blueprint version: " ++ b.version))
    ∧ (∀ b : BlueprintModel, b.version = "1.0" → load_blueprint b = .ok b)
    ∧ (∀ (selectors : List (String × String)) (page : String → List LinkElem) (base_url : String),
        dictGet selectors "category_links" = none →
        blueprint_extract selectors page base_url
          = .error "Blueprint missing category_links selector")
    ∧ (∀ (selectors : List (String × String)) (page : String → List LinkElem) (base_url : String),
        dictGet selectors "category_links" = some "" →
        blueprint_extract selectors page base_url
          = .error "Blueprint missing category_links selector")
    ∧ (∀ (selectors : List (String × String)) (sel : String)
        (page : String → List LinkElem) (base_url : String),
        dictGet selectors "category_links" = some sel → sel ≠ "" →
        replayCats (page sel) base_url = [] →
        blueprint_extract selectors page base_url
          = .error "Blueprint execution returned no categories") := by
  refine ⟨?_, ?_, ?_, ?_, ?_⟩
  · intro b hb
    simp [load_blueprint, hb]
  · intro b hb
    simp [load_blueprint, hb]
  · intro selectors page base_url hsel
    simp [blueprint_extract, hsel]
  · intro selectors page base_url hsel
    simp [blueprint_extract, hsel]
  · intro selectors sel page base_url hsel hne hcats
    simp [blueprint_extract, hsel, hne, hcats]

/-- C6 witness: concrete decode successes and failures, and both replay
failure modes. -/
theorem blueprint_gate_correct_witness :
    load_blueprint
        { version := "1.0",
          metadata := ⟨"https://e.com", 1, none, "2024-01-01T00:00:00", "ai_category_extractor", "0.1.0", 1 / 2⟩,
          extraction_strategy := ⟨"generic", "unknown", true, []⟩,
          selectors := [("nav_container", "nav")], interactions := [],
          validation_rules := ⟨1, 2, 0, ["name", "url"], ""⟩,
          extraction_stats := ⟨1, 0, [(0, 1)]⟩, edge_cases := [], notes := [] }
      = .ok
        { version := "1.0",
          metadata := ⟨"https://e.com", 1, none, "2024-01-01T00:00:00", "ai_category_extractor", "0.1.0", 1 / 2⟩,
          extraction_strategy := ⟨"generic", "unknown", true, []⟩,
          selectors := [("nav_container", "nav")], interactions := [],
          validation_rules := ⟨1, 2, 0, ["name", "url"], ""⟩,
          extraction_stats := ⟨1, 0, [(0, 1)]⟩, edge_cases := [], notes := [] }
    ∧ load_blueprint
        { version := "2.0",
          metadata := ⟨"https://e.com", 1, none, "2024-01-01T00:00:00", "ai_category_extractor", "0.1.0", 1 / 2⟩,
          extraction_strategy := ⟨"generic", "unknown", true, []⟩,
          selectors := [], interactions := [],
          validation_rules := ⟨1, 2, 0, ["name", "url"], ""⟩,
          extraction_stats := ⟨1, 0, [(0, 1)]⟩, edge_cases := [], notes := [] }
      = .error ("Unsupported blueprint version: " ++ "2.0")
    ∧ blueprint_extract [("nav_container", "nav")] (fun _ => []) "https://e.com"
      = .error "Blueprint missing category_links selector"
    ∧ blueprint_extract [("category_links", "a")] (fun _ => []) "https://e.com"
      = .error "Blueprint execution returned no categories" :=
  ⟨blueprint_gate_correct.2.1 _ rfl,
   blueprint_gate_correct.1 _ (by decide),
   blueprint_gate_correct.2.2.1 _ _ _ (by decide),
   blueprint_gate_correct.2.2.2.2 _ "a" _ _ rfl (by decide) rfl⟩

/-! ## Blueprint round-trip (C7) -/

/-- C7: for a non-empty category list and present strategy data, encoding
produces a version-`"1.0"` blueprint that decodes to itself, with selectors
and interactions identical to the strategy's. -/
theorem blueprint_roundtrip (categories : List Category) (s : StrategyData)
    (site_url : String) (retailer_id : Nat) (retailer_name : Option String)
    (generated_at : String) (h : categories ≠ []) :
    ∃ bp, generate categories (some s) site_url retailer_id retailer_name generated_at = .ok bp
      ∧ load_blueprint bp = .ok bp
      ∧ bp.selectors = s.selectors
      ∧ bp.interactions = s.interactions := by
  unfold generate
  rw [if_neg h]
  exact ⟨_, rfl, by unfold load_blueprint; rw [if_neg (by simp)], rfl, rfl⟩

/-- C7 witness: a concrete one-category, one-selector round trip. -/
theorem blueprint_roundtrip_witness :
    (generate [⟨1, "Alpha", "https://e.com/a", 0, none⟩]
        (some { navigation_type := some "sidebar", complexity := none,
                requires_javascript := some true, dynamic_loading := [],
                selectors := [("category_links", "aside a"), ("nav_container", "aside")],
                interactions := [⟨"click", "nav_container", none, 2000, 500⟩],
                confidence := some (4 / 5), url_pattern := none, notes := [] })
        "https://e.com" 7 none "2024-01-01T00:00:00").map
      (fun bp => (bp.version, bp.selectors, bp.interactions))
    = .ok ("1.0", [("category_links", "aside a"), ("nav_container", "aside")],
        [⟨"click", "nav_container", none, 2000, 500⟩]) := by
  obtain ⟨bp, h1, h2, h3, h4⟩ := blueprint_roundtrip
    [⟨1, "Alpha", "https://e.com/a", 0, none⟩]
    { navigation_type := some "sidebar", complexity := none,
      requires_javascript := some true, dynamic_loading := [],
      selectors := [("category_links", "aside a"), ("nav_container", "aside")],
      interactions := [⟨"click", "nav_container", none, 2000, 500⟩],
      confidence := some (4 / 5), url_pattern := none, notes := [] }
    "https://e.com" 7 none "2024-01-01T00:00:00" (by simp)
  rw [h1]
  have hv : bp.version = "1.0" := by
    by_contra hne
    rw [show load_blueprint bp = .error ("Unsupported blueprint version: " ++ bp.version) by
      unfold load_blueprint; rw [if_pos hne]] at h2
    cases h2
  simp [Except.map, hv, h3, h4]

/-! ## Run boundary (C8) -/

/-- C8 counterexample: even with a successful extraction body, a failing
data-layer disconnect during the `finally` cleanup escapes the run boundary,
so the entry points do not always return a structured outcome. -/
theorem run_boundary_counterexample :
    ¬ (∀ (body : BodyOutcome) (env : CleanupEnv) (st : RunState),
        (∃ r, run_extraction body env st = Except.ok r)
        ∧ (∀ ro, ∃ r, run_blueprint ro env st = Except.ok r)) := by
  intro h
  obtain ⟨⟨r, hr⟩, -⟩ :=
    h (.success "done") ⟨true, true, true, true, .ok, .ok, .ok, .ok, .err "db down"⟩
      ⟨"initialized", []⟩
  rw [show run_extraction (.success "done")
        ⟨true, true, true, true, .ok, .ok, .ok, .ok, .err "db down"⟩ ⟨"initialized", []⟩
      = .error "db down" from rfl] at hr
  cases hr

/-- C8 amended: whenever cleanup itself succeeds, both entry points catch
every body exception and return the structured outcome carrying success
flag, stage, partial state and the first fatal error message; only a cleanup
exception can propagate past the run boundary. -/
theorem run_boundary_amended (body : BodyOutcome) (ro : ReplayOutcome) (env : CleanupEnv)
    (st : RunState) (h : (cleanup env).2 = .ok ()) :
    run_extraction body env st = .ok (run_body_result body st)
    ∧ run_blueprint ro env st = .ok (replay_body_result ro st)
    ∧ (∀ m, body = .knownError m →
        (run_body_result body st).success = false
        ∧ (run_body_result body st).error = some m
        ∧ (run_body_result body st).state.stage = "failed"
        ∧ m ∈ (run_body_result body st).state.errors)
    ∧ (∀ m, body = .unexpectedError m →
        (run_body_result body st).success = false
        ∧ (run_body_result body st).error = some "Unexpected error during extraction"
        ∧ (run_body_result body st).state.stage = "failed"
        ∧ m ∈ (run_body_result body st).state.errors) := by
  refine ⟨?_, ?_, ?_, ?_⟩
  · simp only [run_extraction, h]
  · simp only [run_blueprint, h]
  · rintro m rfl
    simp [run_body_result, record_error]
  · rintro m rfl
    simp [run_body_result, record_error]

/-- C8 witness: a caught navigation error with an all-successful cleanup
produces the structured failure outcome, with the message recorded in the
partial state. -/
theorem run_boundary_amended_witness :
    run_extraction (.knownError "Bot detected") ⟨true, true, true, true, .ok, .ok, .ok, .ok, .ok⟩
        ⟨"initialized", []⟩
      = .ok (run_body_result (.knownError "Bot detected") ⟨"initialized", []⟩)
    ∧ "Bot detected" ∈ (run_body_result (.knownError "Bot detected") ⟨"initialized", []⟩).state.errors :=
  ⟨(run_boundary_amended (.knownError "Bot detected") (.success [])
      ⟨true, true, true, true, .ok, .ok, .ok, .ok, .ok⟩ ⟨"initialized", []⟩ rfl).1,
   ((run_boundary_amended (.knownError "Bot detected") (.success [])
      ⟨true, true, true, true, .ok, .ok, .ok, .ok, .ok⟩ ⟨"initialized", []⟩ rfl).2.2.1
      "Bot detected" rfl).2.2.2⟩

/-! ## Cleanup ordering and isolation (C9) -/

/-- C9 counterexample: when `page.close` fails, `context.close` (a remaining
teardown step of a still-present resource) is never attempted; and in the
all-success trace the data-layer disconnect runs last, after every
browser-session teardown step, not before. -/
theorem cleanup_order_counterexample :
    ((cleanup ⟨true, true, true, true, .err "page close failed", .ok, .ok, .ok, .ok⟩).1
        = ["page.close", "db.disconnect"]
      ∧ "context.close" ∉
          (cleanup ⟨true, true, true, true, .err "page close failed", .ok, .ok, .ok, .ok⟩).1)
    ∧ (cleanup ⟨true, true, true, true, .ok, .ok, .ok, .ok, .ok⟩).1
        = ["page.close", "context.close", "browser.close", "playwright.stop", "db.disconnect"] := by
  decide

/-- C9 amended: the data-layer disconnect is always attempted and always
runs last — after, not before, the browser teardown steps — because it sits
in a `finally`; a failing browser teardown step skips the remaining browser
teardown steps but never the disconnect. -/
theorem cleanup_amended (env : CleanupEnv) :
    (cleanup env).1.getLast? = some "db.disconnect"
    ∧ "db.disconnect" ∈ (cleanup env).1
    ∧ (∀ m, env.hasPage = true → env.pageClose = .err m →
        (cleanup env).1 = ["page.close", "db.disconnect"]) := by
  refine ⟨?_, ?_, ?_⟩
  · simp only [cleanup]
    exact List.getLast?_concat _
  · simp only [cleanup]
    exact List.mem_append_right _ (List.mem_singleton_self _)
  · intro m h1 h2
    simp [cleanup, cleanupSteps, runSeq, h1, h2]

/-- C9 witness: concrete evaluation of the amended guarantees on a failing
`page.close`. -/
theorem cleanup_amended_witness :
    (cleanup ⟨true, true, false, true, .err "boom", .ok, .ok, .ok, .ok⟩).1
        = ["page.close", "db.disconnect"]
    ∧ (cleanup ⟨true, true, false, true, .err "boom", .ok, .ok, .ok, .ok⟩).1.getLast?
        = some "db.disconnect" :=
  ⟨(cleanup_amended ⟨true, true, false, true, .err "boom", .ok, .ok, .ok, .ok⟩).2.2 "boom" rfl rfl,
   (cleanup_amended ⟨true, true, false, true, .err "boom", .ok, .ok, .ok, .ok⟩).1⟩

/-! ## Fallback extraction invariants (C10) -/

theorem processLinks_spec :
    ∀ (links : List LinkElem) (seen : List String) (n : Nat),
      (∀ c ∈ (processLinks links seen n).2.2,
        c.depth = 0 ∧ c.parent_id = none ∧ 2 < c.name.length ∧ c.name.length < 100
        ∧ fallbackSkip c.url = false ∧ c.url ∉ seen ∧ c.url ∈ (processLinks links seen n).1)
      ∧ (processLinks links seen n).2.2.Pairwise (fun a b => a.url ≠ b.url)
      ∧ (∀ u ∈ seen, u ∈ (processLinks links seen n).1) := by
  intro links
  induction links with
  | nil =>
    intro seen n
    simp [processLinks]
  | cons e rest ih =>
    intro seen n
    cases hx : extractLink e with
    | none =>
      simp only [processLinks, hx]
      exact ih seen n
    | some nu =>
      simp only [processLinks, hx]
      by_cases h1 : fallbackSkip nu.2 = true
      · rw [if_pos h1]
        exact ih seen n
      · rw [if_neg h1]
        by_cases h2 : nu.2 ∈ seen
        · rw [if_pos h2]
          exact ih seen n
        · rw [if_neg h2]
          by_cases h3 : 2 < nu.1.length ∧ nu.1.length < 100
          · rw [if_pos h3]
            obtain ⟨ihA, ihB, ihC⟩ := ih (nu.2 :: seen) (n + 1)
            rcases hr : processLinks rest (nu.2 :: seen) (n + 1) with ⟨s1, n1, cs1⟩
            rw [hr] at ihA ihB ihC
            simp only at ihA ihB ihC ⊢
            refine ⟨?_, ?_, ?_⟩
            · intro c hc
              rcases List.mem_cons.1 hc with rfl | hc2
              · exact ⟨rfl, rfl, h3.1, h3.2, by simpa using h1, h2,
                  ihC nu.2 (List.mem_cons_self _ _)⟩
              · obtain ⟨d0, dp, dn1, dn2, ds, dseen, dres⟩ := ihA c hc2
                exact ⟨d0, dp, dn1, dn2, ds, fun hcs => dseen (List.mem_cons_of_mem _ hcs), dres⟩
            · refine List.Pairwise.cons ?_ ihB
              intro b hb he
              obtain ⟨-, -, -, -, -, bseen, -⟩ := ihA b hb
              exact bseen (he ▸ List.mem_cons_self _ _)
            · intro u hu
              exact ihC u (List.mem_cons_of_mem _ hu)
          · rw [if_neg h3]
            obtain ⟨ihA, ihB, ihC⟩ := ih (nu.2 :: seen) n
            refine ⟨?_, ihB, ?_⟩
            · intro c hc
              obtain ⟨d0, dp, dn1, dn2, ds, dseen, dres⟩ := ihA c hc
              exact ⟨d0, dp, dn1, dn2, ds, fun hcs => dseen (List.mem_cons_of_mem _ hcs), dres⟩
            · intro u hu
              exact ihC u (List.mem_cons_of_mem _ hu)

theorem processContainers_spec :
    ∀ (conts : List (List LinkElem)) (seen : List String) (n : Nat),
      (∀ c ∈ (processContainers conts seen n).2.2,
        c.depth = 0 ∧ c.parent_id = none ∧ 2 < c.name.length ∧ c.name.length < 100
        ∧ fallbackSkip c.url = false ∧ c.url ∉ seen ∧ c.url ∈ (processContainers conts seen n).1)
      ∧ (processContainers conts seen n).2.2.Pairwise (fun a b => a.url ≠ b.url)
      ∧ (∀ u ∈ seen, u ∈ (processContainers conts seen n).1) := by
  intro conts
  induction conts with
  | nil =>
    intro seen n
    simp [processContainers]
  | cons c rest ih =>
    intro seen n
    obtain ⟨plA, plB, plC⟩ := processLinks_spec (c.take 50) seen n
    rcases hr1 : processLinks (c.take 50) seen n with ⟨s1, n1, cs1⟩
    obtain ⟨ihA, ihB, ihC⟩ := ih s1 n1
    rcases hr2 : processContainers rest s1 n1 with ⟨s2, n2, cs2⟩
    rw [hr1] at plA plC
    rw [hr2] at ihA ihB ihC
    simp only [processContainers, hr1, hr2] at *
    refine ⟨?_, ?_, ?_⟩
    · intro d hd
      rcases List.mem_append.1 hd with hd1 | hd2
      · obtain ⟨d0, dp, dn1, dn2, ds, dseen, dres⟩ := plA d hd1
        exact ⟨d0, dp, dn1, dn2, ds, dseen, ihC d.url dres⟩
      · obtain ⟨d0, dp, dn1, dn2, ds, dseen, dres⟩ := ihA d hd2
        exact ⟨d0, dp, dn1, dn2, ds, fun hds => dseen (plC d.url hds), dres⟩
    · rw [List.pairwise_append]
      refine ⟨plB, ihB, ?_⟩
      intro a ha b hb he
      obtain ⟨-, -, -, -, -, -, ares⟩ := plA a ha
      obtain ⟨-, -, -, -, -, bseen, -⟩ := ihA b hb
      exact bseen (he ▸ ares)
    · intro u hu
      exact ihC u (plC u hu)

theorem fallbackLoop_spec (page : String → List (List LinkElem)) :
    ∀ (pats : List String) (seen : List String) (n : Nat),
      (∀ c ∈ (fallbackLoop page pats seen n).2,
        c.depth = 0 ∧ c.parent_id = none ∧ 2 < c.name.length ∧ c.name.length < 100
        ∧ fallbackSkip c.url = false)
      ∧ (fallbackLoop page pats seen n).2.Pairwise (fun a b => a.url ≠ b.url) := by
  intro pats
  induction pats with
  | nil =>
    intro seen n
    simp [fallbackLoop]
  | cons p rest ih =>
    intro seen n
    by_cases hp : page p = []
    · simp only [fallbackLoop, if_pos hp]
      exact ih seen n
    · obtain ⟨pcA, pcB, -⟩ := processContainers_spec ((page p).take 3) seen n
      rcases hr : processContainers ((page p).take 3) seen n with ⟨s1, n1, cs1⟩
      rw [hr] at pcA pcB
      simp only [fallbackLoop, if_neg hp, hr]
      by_cases hcs : cs1 = []
      · rw [if_pos hcs]
        exact ih s1 n1
      · rw [if_neg hcs]
        simp only
        refine ⟨?_, pcB⟩
        intro c hc
        obtain ⟨d0, dp, dn1, dn2, ds, -, -⟩ := pcA c hc
        exact ⟨d0, dp, dn1, dn2, ds⟩

theorem checkParents_all_none (ids : List Nat) :
    ∀ (l : List Category), (∀ c ∈ l, c.parent_id = none) → checkParents ids l = .ok true := by
  intro l
  induction l with
  | nil => intro _; rfl
  | cons c rest ih =>
    intro h
    have hc := h c (List.mem_cons_self _ _)
    simp only [checkParents, hc]
    exact ih (fun d hd => h d (List.mem_cons_of_mem _ hd))

/-- C10: every category emitted by `_fallback_extraction` has depth 0 and a
null parent, a stripped name of length strictly between 2 and 100, a URL
free (case-insensitively) of the known non-category substrings, and a URL
distinct from every other emitted category; consequently the result always
passes `validate_hierarchy`. -/
theorem fallback_extraction_invariants (page : String → List (List LinkElem)) (n : Nat) :
    (∀ c ∈ (fallback_extraction page n).2,
      c.depth = 0 ∧ c.parent_id = none ∧ 2 < c.name.length ∧ c.name.length < 100
      ∧ fallbackSkip c.url = false)
    ∧ (fallback_extraction page n).2.Pairwise (fun a b => a.url ≠ b.url)
    ∧ validate_hierarchy (fallback_extraction page n).2 = .ok true := by
  obtain ⟨hA, hB⟩ := fallbackLoop_spec page fallback_patterns [] n
  exact ⟨hA, hB, checkParents_all_none _ _ (fun c hc => (hA c hc).2.1)⟩

/-- C10 witness: a concrete page whose `aside` container holds one genuine
category link, one login link (filtered out), one duplicate, and one short
name (filtered out). -/
theorem fallback_extraction_invariants_witness :
    (fallback_extraction
        (fun s => if s = "aside" then
          [[⟨"Electronics", some "/electronics"⟩, ⟨"My Login", some "/login"⟩,
            ⟨"Gifts", some "/gifts"⟩, ⟨"Electronics Again", some "/electronics"⟩,
            ⟨"Ab", some "/ab"⟩]]
          else []) 1).2.length = 2
    ∧ validate_hierarchy
        (fallback_extraction
          (fun s => if s = "aside" then
            [[⟨"Electronics", some "/electronics"⟩, ⟨"My Login", some "/login"⟩,
              ⟨"Gifts", some "/gifts"⟩, ⟨"Electronics Again", some "/electronics"⟩,
              ⟨"Ab", some "/ab"⟩]]
            else []) 1).2 = .ok true :=
  ⟨by decide,
   (fallback_extraction_invariants
      (fun s => if s = "aside" then
        [[⟨"Electronics", some "/electronics"⟩, ⟨"My Login", some "/login"⟩,
          ⟨"Gifts", some "/gifts"⟩, ⟨"Electronics Again", some "/electronics"⟩,
          ⟨"Ab", some "/ab"⟩]]
        else []) 1).2.2⟩

end Extractor
